import Mathlib

/-!
Verification of the dstaf supervision engine (`src/dstaf/base.py`).

Shallow embedding notes:
* A `concurrent.futures` future is modelled by the terminal behaviour of the
  work submitted to it: an optional tick `completesAt` at which the work stops
  executing (`none` means the work never stops), plus the terminal exception
  (if any).  `Future.running()` is true exactly while the work is executing;
  the model assumes the pool has a free worker, so the dispatched work starts
  immediately (no pending phase).
* Wall-clock time is discretised into `Nat` ticks: one iteration of a busy
  poll loop takes one tick, and `Future.exception(timeout)` waits up to
  `timeout` ticks, raising `TimeoutError` when the work has not completed by
  then (exactly the semantics of `concurrent.futures.Future.exception`).
* The Python registry `self.applications` (a dict from future to
  `ApplicationData`, which is a one-field wrapper around the task object) is
  an insertion-ordered association list from handle to task runtime state,
  matching dict iteration order.
* `uuid4()` appearing as a default argument of `Application.__init__` is
  evaluated once, when the `def` line executes at class definition time; the
  value it produced then is `World.moduleDefaultAppId`.
-/

namespace DSTAF

/-- Terminal behaviour of the work dispatched on a worker-pool future:
`completesAt` is the tick at which the work stops executing (`none` = never),
`exc` the uncaught terminal exception, if any. -/
structure Fut where
  completesAt : Option Nat
  exc : Option String
deriving DecidableEq

/-- The `Future.running()` query at tick `t`: true while the work is still
executing. -/
def Fut.runningAt (f : Fut) (t : Nat) : Bool :=
  match f.completesAt with
  | none => true
  | some s => decide (t < s)

/-- Tick at which `remove_application`'s wait on this future ends when the
wait starts at tick `t` (used only to state specifications). -/
def Fut.endTime (f : Fut) (t : Nat) : Nat :=
  match f.completesAt with
  | some c => max t c
  | none => t

/-- A scheduling handle: the future object returned by
`ThreadPoolExecutor.submit`, identified by `hid` (object identity) and
carrying the behaviour of the submitted work. -/
structure Handle where
  hid : Nat
  fut : Fut
deriving DecidableEq

/-- The mutable state of an `Application` instance that the supervisor reads
and writes: its display name, its `app_id` identifier (`uuid.UUID` modelled
as `Nat`), and its cooperative `running` flag. -/
structure AppRuntime where
  app_name : String
  app_id : Nat
  running : Bool
deriving DecidableEq

/-- State of an `ApplicationServer` instance.  `applications` is the registry
(dict from future handle to the task runtime held by its `ApplicationData`
wrapper), in insertion order.  `started` is the private `__started` flag,
`autostart` the private `__autostart` flag. -/
structure ServerState where
  server_name : String
  workers : Nat
  applications : List (Handle × AppRuntime)
  autostart : Bool
  started : Bool
deriving DecidableEq

/-- Python exceptions raised by the supervisor code paths under study. -/
inductive PyErr where
  | typeError
  | notFuture
  | timeoutError
  | keyError
deriving DecidableEq

/-- A dynamically typed Python argument as passed to `start_application` /
`remove_application`: an `Application` instance, a future handle, or a value
of some other type. -/
inductive PyVal where
  | app (rt : AppRuntime)
  | fut (th : Handle)
  | str (s : String)
  | pynone
deriving DecidableEq

/-- Python dict assignment `d[k] = v`: overwrite in place when the key is
present, otherwise append (insertion order preserved). -/
def dictInsert (l : List (Handle × AppRuntime)) (k : Handle) (v : AppRuntime) :
    List (Handle × AppRuntime) :=
  if l.any (fun p => decide (p.1 = k)) then
    l.map (fun p => if p.1 = k then (k, v) else p)
  else l ++ [(k, v)]

/-- Python dict lookup `d[k]` (`none` = `KeyError`). -/
def dictLookup (l : List (Handle × AppRuntime)) (k : Handle) : Option AppRuntime :=
  match l with
  | [] => none
  | p :: rest => if p.1 = k then some p.2 else dictLookup rest k

/-- Python `del d[k]`. -/
def dictDelete (l : List (Handle × AppRuntime)) (k : Handle) :
    List (Handle × AppRuntime) :=
  l.filter (fun p => !decide (p.1 = k))

/-- The statement `self.applications[thread].runtime.running = False`: set the
`running` flag of the registry entry keyed by `k` to false.  (Keys are unique
in a dict, so mapping over all entries with that key is the same update.) -/
def flagDown (l : List (Handle × AppRuntime)) (k : Handle) :
    List (Handle × AppRuntime) :=
  l.map (fun p => if p.1 = k then (p.1, { p.2 with running := false }) else p)

/-- The sweep loop of `application_check` with no argument: iterate the
registry keys in order and collect every handle whose work is not running at
tick `t`.  (The exception retrieval and log formatting on each dead handle
only produce log lines and do not affect the returned value.) -/
def sweepNotAlive (l : List (Handle × AppRuntime)) (t : Nat) : List Handle :=
  match l with
  | [] => []
  | (k, _) :: rest =>
    if k.fut.runningAt t then sweepNotAlive rest t else k :: sweepNotAlive rest t

/-- Method `ApplicationServer.application_check(thread=None)` at tick `t`.
The pair returned is (server state after the call, returned tuple); the
method body never writes any server attribute, which the first component
makes explicit. -/
def applicationCheck (s : ServerState) (thread : Option Handle) (t : Nat) :
    ServerState × List Handle :=
  match thread with
  | none => (s, sweepNotAlive s.applications t)
  | some th => (s, if th.fut.runningAt t then [] else [th])

/-- Method `ApplicationServer.start_application(app)`.  `h` is the fresh
future obtained from `self.thread_pool.submit(app.run)`.  The returned flag
records whether the autostart branch entered `self.run()` (whose first
statement sets `__started`; the run loop itself is a top-level driver and is
not modelled further).  A non-`Application` argument raises `TypeError`
before any mutation.  The `inspect.getsource` check only logs a warning. -/
def startApplication (s : ServerState) (v : PyVal) (h : Handle) :
    ServerState × Except PyErr Bool :=
  match v with
  | .app rt =>
    let s1 : ServerState := { s with applications := dictInsert s.applications h rt }
    if s1.autostart && !s1.started then
      ({ s1 with started := true }, .ok true)
    else (s1, .ok false)
  | _ => (s, .error .typeError)

/-- One iteration of the `while thread.running():` loop of
`remove_application`, with `rec` the remaining iterations.
Mirrors the body at `base.py:162-186`: while the work is executing, set the
task's `running` flag false; once 3 ticks have elapsed since `start`, log the
unresponsive warning and the escalation notice and probe
`thread.exception(2)` — which returns (and is logged when not `None`) only if
the work completes within 2 more ticks, and otherwise raises `TimeoutError`
out of the method; when the work is no longer executing, read the task name
(a `KeyError` when the handle is unregistered) and delete the registry entry.
The result carries the post-call server state, and on success the removed
task's final runtime and the tick at which the removal finished. -/
def removeLoopStep (th : Handle) (start : Nat)
    (rec : ServerState → Nat → Option (ServerState × Except PyErr (AppRuntime × Nat)))
    (s : ServerState) (t : Nat) :
    Option (ServerState × Except PyErr (AppRuntime × Nat)) :=
  if th.fut.runningAt t then
    match dictLookup s.applications th with
    | none => some (s, .error .keyError)
    | some _ =>
      let s1 : ServerState := { s with applications := flagDown s.applications th }
      if start + 3 ≤ t then
        match th.fut.completesAt with
        | some c =>
          if c ≤ t + 2 then rec s1 (max t c)
          else some (s1, .error .timeoutError)
        | none => some (s1, .error .timeoutError)
      else rec s1 (t + 1)
  else
    match dictLookup s.applications th with
    | none => some (s, .error .keyError)
    | some rt =>
      some ({ s with applications := dictDelete s.applications th }, .ok (rt, t))

/-- The wait loop of `remove_application`, fuel-bounded (`none` = fuel ran
out; every claim instantiates enough fuel for the loop's actual bound). -/
def removeLoop (th : Handle) (start : Nat) :
    Nat → ServerState → Nat → Option (ServerState × Except PyErr (AppRuntime × Nat))
  | 0, _, _ => none
  | fuel + 1, s, t => removeLoopStep th start (removeLoop th start fuel) s t

/-- Method `ApplicationServer.remove_application(thread)` called at tick `t`:
a non-`Future` argument raises `Exceptions.NotFuture` before any mutation;
otherwise run the wait loop. -/
def removeApplication (fuel : Nat) (s : ServerState) (v : PyVal) (t : Nat) :
    Option (ServerState × Except PyErr (AppRuntime × Nat)) :=
  match v with
  | .fut th => removeLoop th t fuel s t
  | _ => some (s, .error .notFuture)

/-- The `for` loop of `shutdown`: call `remove_application` on each handle of
the snapshot `list(self.applications.keys())`, accumulating for each removed
handle its final runtime and the tick its removal started (a raised exception
propagates, aborting the loop). -/
def shutdownLoop (fuel : Nat) :
    List Handle → ServerState → Nat → List (Handle × AppRuntime × Nat) →
    Option (ServerState × Except PyErr (List (Handle × AppRuntime × Nat) × Nat))
  | [], s, t, acc => some (s, .ok (acc.reverse, t))
  | th :: rest, s, t, acc =>
    match removeLoop th t fuel s t with
    | none => none
    | some (s1, .error e) => some (s1, .error e)
    | some (s1, .ok (rt, t1)) => shutdownLoop fuel rest s1 t1 ((th, rt, t) :: acc)

/-- Method `ApplicationServer.shutdown()` called at tick `t`. -/
def shutdown (fuel : Nat) (s : ServerState) (t : Nat) :
    Option (ServerState × Except PyErr (List (Handle × AppRuntime × Nat) × Nat)) :=
  shutdownLoop fuel (s.applications.map Prod.fst) s t []

/-- Specification-side description of what `shutdown` does to each removed
task, per the amended claim C1: walking the registry in order, a task whose
work is still executing when its removal begins has its `running` flag set to
false, while a task whose work had already stopped keeps its flag unchanged;
each removal ends at the work's completion tick. -/
def specShutdownRemoved :
    List (Handle × AppRuntime) → Nat → List (Handle × AppRuntime × Nat)
  | [], _ => []
  | (th, rt) :: rest, t =>
    (th, (if th.fut.runningAt t then { rt with running := false } else rt), t)
      :: specShutdownRemoved rest (th.fut.endTime t)

/-- The sweep collects exactly the registry keys whose work is not running,
in registry order. -/
theorem sweepNotAlive_eq_filter (l : List (Handle × AppRuntime)) (t : Nat) :
    sweepNotAlive l t = (l.map Prod.fst).filter (fun k => !(k.fut.runningAt t)) := by
  induction l with
  | nil => rfl
  | cons p rest ih =>
    obtain ⟨k, rt⟩ := p
    simp only [sweepNotAlive, List.map_cons, List.filter_cons]
    cases h : k.fut.runningAt t <;> simp [h, ih]

/-- Demonstration objects: a handle whose work completed at tick 0, a handle
whose work never stops, and small server states over them. -/
def hDead : Handle := ⟨0, ⟨some 0, none⟩⟩

def hLive : Handle := ⟨1, ⟨none, none⟩⟩

def rtA : AppRuntime := ⟨"A", 7, true⟩

def rtB : AppRuntime := ⟨"B", 8, true⟩

def sEmpty : ServerState := ⟨"S", 1, [], false, false⟩

def sDemo : ServerState := ⟨"S", 1, [(hDead, rtA), (hLive, rtB)], false, false⟩

/-- C4: `application_check()` with no handle returns exactly the registered
handles whose work has stopped executing, in registry insertion order, and in
particular the empty tuple when no handles are registered. -/
theorem C4_sweep_stopped_in_order (s : ServerState) (t : Nat) :
    (applicationCheck s none t).2 =
      (s.applications.map Prod.fst).filter (fun k => !(k.fut.runningAt t)) ∧
    (s.applications = [] → (applicationCheck s none t).2 = []) := by
  constructor
  · simpa only [applicationCheck] using sweepNotAlive_eq_filter s.applications t
  · intro h
    simp [applicationCheck, h, sweepNotAlive]

/-- Witness for C4 at concrete inputs: a two-entry registry with one stopped
task yields exactly that handle; the empty registry yields the empty tuple. -/
theorem C4_sweep_stopped_in_order_witness :
    (applicationCheck sDemo none 5).2 =
      (sDemo.applications.map Prod.fst).filter (fun k => !(k.fut.runningAt 5)) ∧
    (applicationCheck sEmpty none 5).2 = [] :=
  ⟨(C4_sweep_stopped_in_order sDemo 5).1, (C4_sweep_stopped_in_order sEmpty 5).2 rfl⟩

/-- C5: `application_check(h)` with an explicit handle returns the singleton
tuple `(h,)` when `h`'s work has stopped executing and the empty tuple when
it is still executing. -/
theorem C5_check_explicit_handle (s : ServerState) (th : Handle) (t : Nat) :
    (th.fut.runningAt t = false → (applicationCheck s (some th) t).2 = [th]) ∧
    (th.fut.runningAt t = true → (applicationCheck s (some th) t).2 = []) := by
  constructor <;> intro h <;> simp [applicationCheck, h]

/-- Witness for C5: the completed handle is returned as a singleton, the
never-stopping handle gives the empty tuple. -/
theorem C5_check_explicit_handle_witness :
    (applicationCheck sDemo (some hDead) 5).2 = [hDead] ∧
    (applicationCheck sDemo (some hLive) 5).2 = [] :=
  ⟨(C5_check_explicit_handle sDemo hDead 5).1 rfl,
   (C5_check_explicit_handle sDemo hLive 5).2 rfl⟩

/-- C8: `application_check` never mutates the server: the registry (and every
other server attribute) after the call is exactly the state before it, for
every argument. -/
theorem C8_check_no_side_effects (s : ServerState) (thread : Option Handle) (t : Nat) :
    (applicationCheck s thread t).1 = s := by
  cases thread <;> rfl

/-- C9: the explicit-handle branch of `application_check` never consults the
registry — the result is the same w.r.t. any two server states, and a handle
whose work has stopped is returned as `(h,)` even when it is not registered
at all. -/
theorem C9_check_handle_ignores_registry (s1 s2 : ServerState) (th : Handle) (t : Nat) :
    (applicationCheck s1 (some th) t).2 = (applicationCheck s2 (some th) t).2 ∧
    (th ∉ s1.applications.map Prod.fst → th.fut.runningAt t = false →
      (applicationCheck s1 (some th) t).2 = [th]) := by
  refine ⟨rfl, fun _ h => ?_⟩
  simp [applicationCheck, h]

/-- Witness for C9: checking the completed handle against a server that never
registered it still returns the singleton tuple. -/
theorem C9_check_handle_ignores_registry_witness :
    (applicationCheck sEmpty (some hDead) 5).2 = (applicationCheck sDemo (some hDead) 5).2 ∧
    (applicationCheck sEmpty (some hDead) 5).2 = [hDead] :=
  ⟨(C9_check_handle_ignores_registry sEmpty sDemo hDead 5).1,
   (C9_check_handle_ignores_registry sEmpty sDemo hDead 5).2 (by decide) rfl⟩

/-- C6: a wrongly typed argument makes `start_application` raise `TypeError`
and `remove_application` raise `Exceptions.NotFuture`, immediately and
synchronously, with the server state (registry included) left unchanged. -/
theorem C6_contract_violation_no_mutation (s : ServerState) (v : PyVal) (h : Handle)
    (fuel t : Nat) :
    ((∀ rt, v ≠ PyVal.app rt) → startApplication s v h = (s, .error .typeError)) ∧
    ((∀ th, v ≠ PyVal.fut th) → removeApplication fuel s v t = some (s, .error .notFuture)) := by
  constructor
  · intro hv
    cases v
    · exact absurd rfl (hv _)
    · rfl
    · rfl
    · rfl
  · intro hv
    cases v
    · rfl
    · exact absurd rfl (hv _)
    · rfl
    · rfl

/-- Witness for C6: passing a string where a task or future is expected fails
with the respective error and returns the registry untouched. -/
theorem C6_contract_violation_no_mutation_witness :
    startApplication sDemo (PyVal.str "x") hDead = (sDemo, .error .typeError) ∧
    removeApplication 9 sDemo (PyVal.str "x") 0 = some (sDemo, .error .notFuture) :=
  ⟨(C6_contract_violation_no_mutation sDemo (PyVal.str "x") hDead 9 0).1
      (fun _ hEq => PyVal.noConfusion hEq),
   (C6_contract_violation_no_mutation sDemo (PyVal.str "x") hDead 9 0).2
      (fun _ hEq => PyVal.noConfusion hEq)⟩

/-- Unfolding lemma for one iteration of the wait loop. -/
theorem removeLoop_succ (th : Handle) (start fuel : Nat) (s : ServerState) (t : Nat) :
    removeLoop th start (fuel + 1) s t =
      removeLoopStep th start (removeLoop th start fuel) s t := rfl

/-- With a known completion tick, `Future.running()` is the comparison of the
current tick against it. -/
theorem runningAt_of_completesAt (f : Fut) (c t : Nat) (hc : f.completesAt = some c) :
    f.runningAt t = decide (t < c) := by
  simp [Fut.runningAt, hc]

/-- Looking up the key just flag-lowered returns its runtime with the flag
low. -/
theorem dictLookup_flagDown (l : List (Handle × AppRuntime)) (k : Handle) :
    dictLookup (flagDown l k) k =
      (dictLookup l k).map (fun rt => { rt with running := false }) := by
  induction l with
  | nil => rfl
  | cons p rest ih =>
    simp only [flagDown] at ih ⊢
    by_cases h : p.1 = k
    · simp [dictLookup, h]
    · simp [dictLookup, h, ih]

/-- Deleting a key discards the flag-lowering of that same key. -/
theorem dictDelete_flagDown (l : List (Handle × AppRuntime)) (k : Handle) :
    dictDelete (flagDown l k) k = dictDelete l k := by
  induction l with
  | nil => rfl
  | cons p rest ih =>
    simp only [flagDown, dictDelete] at ih ⊢
    by_cases h : p.1 = k
    · simpa [List.filter_cons, h] using ih
    · simpa [List.filter_cons, h] using ih

/-- Deleting an absent key is a no-op. -/
theorem dictDelete_not_mem (l : List (Handle × AppRuntime)) (k : Handle)
    (h : k ∉ l.map Prod.fst) : dictDelete l k = l := by
  induction l with
  | nil => rfl
  | cons p rest ih =>
    simp only [List.map_cons, List.mem_cons, not_or] at h
    have h1 : ¬ p.1 = k := fun hh => h.1 hh.symm
    simp only [dictDelete] at ih ⊢
    simp [List.filter_cons, h1, ih h.2]

/-- Behaviour of the `remove_application` wait loop on a registered handle
whose work completes at tick `c` within the success window (`c ≤ start + 5`,
i.e. inside the 3-tick grace period plus the 2-tick exception probe): the
loop ends at tick `max t c`, deletes the entry, and the removed task keeps
its flag iff its work had already stopped when the loop reached it. -/
theorem removeLoop_run (th : Handle) (c : Nat) (hc : th.fut.completesAt = some c) :
    ∀ (fuel : Nat), ∀ (start t : Nat) (s : ServerState) (rt : AppRuntime),
    dictLookup s.applications th = some rt →
    start ≤ t →
    (t ≤ start + 3 ∨ c ≤ t) →
    c ≤ start + 5 →
    (start + 4) - t < fuel →
    removeLoop th start fuel s t =
      some ({ s with applications := dictDelete s.applications th },
        .ok ((if th.fut.runningAt t then { rt with running := false } else rt), max t c)) := by
  intro fuel
  induction fuel with
  | zero =>
    intro start t s rt _ _ _ _ hfuel
    omega
  | succ fuel ih =>
    intro start t s rt hl hst hcase hc5 hfuel
    rw [removeLoop_succ]
    unfold removeLoopStep
    simp only [runningAt_of_completesAt th.fut c _ hc, hl]
    have hl2 : dictLookup (flagDown s.applications th) th =
        some { rt with running := false } := by
      rw [dictLookup_flagDown, hl]
      rfl
    by_cases htc : t < c
    · -- work still executing at tick t
      simp only [decide_eq_true htc, if_true]
      by_cases hesc : start + 3 ≤ t
      · -- escalation branch: warn, escalate, probe thread.exception(2)
        have hcp : c ≤ t + 2 := by omega
        rw [if_pos hesc, hc]
        simp only [if_pos hcp]
        have hrec := ih start c { s with applications := flagDown s.applications th }
          { rt with running := false } hl2 (by omega) (Or.inr le_rfl) hc5 (by omega)
        have hmax : max t c = c := by omega
        rw [hmax, hrec, runningAt_of_completesAt th.fut c c hc]
        have hcc : decide (c < c) = false := by simp
        rw [hcc]
        simp only [Bool.false_eq_true, if_false]
        rw [show dictDelete (flagDown s.applications th) th = dictDelete s.applications th
          from dictDelete_flagDown s.applications th, Nat.max_self]
      · -- still inside the grace period: next poll at the next tick
        rw [if_neg hesc]
        have hrec := ih start (t + 1) { s with applications := flagDown s.applications th }
          { rt with running := false } hl2 (by omega) (Or.inl (by omega)) hc5 (by omega)
        rw [hrec]
        have hm1 : max (t + 1) c = max t c := by omega
        have hflag : (if th.fut.runningAt (t + 1) = true then
            ({ { rt with running := false } with running := false } : AppRuntime)
            else { rt with running := false }) = { rt with running := false } := by
          cases th.fut.runningAt (t + 1) <;> rfl
        rw [hm1, hflag]
        rw [show dictDelete (flagDown s.applications th) th = dictDelete s.applications th
          from dictDelete_flagDown s.applications th]
    · -- the work has already stopped: read the name, delete the entry
      have hdec : decide (t < c) = false := by simp [htc]
      rw [hdec]
      simp only [Bool.false_eq_true, if_false]
      have hmax : max t c = t := by omega
      rw [hmax]

/-- Specialisation of `removeLoop_run` to a removal started at tick `t` with
fuel 6 (enough for the at most five loop iterations the window allows). -/
theorem removeLoop_complete (th : Handle) (rt : AppRuntime) (c t : Nat) (s : ServerState)
    (hl : dictLookup s.applications th = some rt)
    (hc : th.fut.completesAt = some c) (hle : c ≤ t + 5) :
    removeLoop th t 6 s t =
      some ({ s with applications := dictDelete s.applications th },
        .ok ((if th.fut.runningAt t then { rt with running := false } else rt), max t c)) :=
  removeLoop_run th c hc 6 t t s rt hl le_rfl (Or.inl (by omega)) hle (by omega)

/-- Clearing an already empty registry field is the identity. -/
theorem serverState_eta_empty (s : ServerState) (h : s.applications = []) :
    ({ s with applications := [] } : ServerState) = s := by
  cases s
  simp_all

/-- Behaviour of the `shutdown` loop when every registered task's work
completes within the removal success window of the shutdown call: the
registry drains completely and the removed tasks come out exactly as
`specShutdownRemoved` describes. -/
theorem shutdownLoop_spec (l : List (Handle × AppRuntime)) :
    ∀ (t : Nat) (s : ServerState) (acc : List (Handle × AppRuntime × Nat)),
    s.applications = l →
    (l.map Prod.fst).Nodup →
    (∀ p ∈ l, ∃ c, p.1.fut.completesAt = some c ∧ c ≤ t + 5) →
    ∃ tEnd, shutdownLoop 6 (l.map Prod.fst) s t acc =
      some ({ s with applications := [] },
        .ok (acc.reverse ++ specShutdownRemoved l t, tEnd)) := by
  induction l with
  | nil =>
    intro t s acc hs _ _
    refine ⟨t, ?_⟩
    rw [serverState_eta_empty s hs]
    simp [shutdownLoop, specShutdownRemoved]
  | cons p rest ih =>
    obtain ⟨th, rt⟩ := p
    intro t s acc hs hnodup hcomp
    obtain ⟨c, hc0, hc5⟩ := hcomp (th, rt) (List.mem_cons_self _ _)
    have hc : th.fut.completesAt = some c := hc0
    have hl : dictLookup s.applications th = some rt := by
      rw [hs]
      simp [dictLookup]
    have hnd : th ∉ rest.map Prod.fst := by
      simp only [List.map_cons, List.nodup_cons] at hnodup
      exact hnodup.1
    have hdel : dictDelete s.applications th = rest := by
      have h2 := dictDelete_not_mem rest th hnd
      rw [hs]
      simp only [dictDelete, List.filter_cons] at h2 ⊢
      simp [h2]
    have hrm := removeLoop_complete th rt c t s hl hc hc5
    have hrest : ∀ p ∈ rest, ∃ c', p.1.fut.completesAt = some c' ∧ c' ≤ max t c + 5 := by
      intro p hp
      obtain ⟨c', hc', hle'⟩ := hcomp p (List.mem_cons_of_mem _ hp)
      exact ⟨c', hc', by omega⟩
    obtain ⟨tEnd, hrec⟩ := ih (max t c) { s with applications := rest }
      ((th, (if th.fut.runningAt t then { rt with running := false } else rt), t) :: acc)
      rfl (by simpa using hnodup.of_cons) hrest
    refine ⟨tEnd, ?_⟩
    simp only [List.map_cons, shutdownLoop, hrm, hdel]
    rw [hrec]
    have hend : th.fut.endTime t = max t c := by
      simp [Fut.endTime, hc]
    simp [specShutdownRemoved, hend]
/-- A one-entry server whose task's work terminated on its own (at tick 0)
while its `running` flag is still true — e.g. its `run` method returned or
raised without ever setting the flag. -/
def sDead : ServerState := ⟨"S", 1, [(hDead, rtA)], false, false⟩

/-- C1 counterexample: calling `shutdown()` at tick 5 on `sDead` empties the
registry, but the removed task's `running` flag is NOT set to false — the
flag assignment sits inside `while thread.running():`, whose body never runs
for work that has already terminated.  This refutes the claim that removal
sets the flag "including tasks whose work had already terminated on its own
before removal". -/
theorem C1_counterexample_dead_task_keeps_flag :
    shutdown 6 sDead 5 =
      some ({ sDead with applications := [] }, .ok ([(hDead, rtA, 5)], 5)) ∧
    rtA.running = true :=
  ⟨rfl, rfl⟩

/-- C1 amended: provided every registered task's work completes within the
removal success window (5 ticks — the 3-tick grace period plus the 2-tick
exception probe — from the start of the shutdown call, so no `TimeoutError`
escapes), `shutdown()` results in a registry of size 0, and each removed
task's `running` flag is set to false iff its work was still executing when
its removal began; a task whose work had already terminated keeps its
previous flag value (see `specShutdownRemoved`). -/
theorem C1_amended_shutdown_drains_registry (s : ServerState) (t : Nat)
    (hnodup : (s.applications.map Prod.fst).Nodup)
    (hcomp : ∀ p ∈ s.applications, ∃ c, p.1.fut.completesAt = some c ∧ c ≤ t + 5) :
    ∃ tEnd, shutdown 6 s t =
      some ({ s with applications := [] },
        .ok (specShutdownRemoved s.applications t, tEnd)) := by
  obtain ⟨tEnd, h⟩ := shutdownLoop_spec s.applications t s [] rfl hnodup hcomp
  refine ⟨tEnd, ?_⟩
  simpa [shutdown] using h

/-- Handles for the C1 witness: one task whose work stops at tick 2 (it
observes the stop signal) and one whose work already stopped at tick 0. -/
def hP : Handle := ⟨2, ⟨some 2, none⟩⟩

def hQ : Handle := ⟨3, ⟨some 0, none⟩⟩

def sPair : ServerState := ⟨"S", 1, [(hP, rtA), (hQ, rtB)], false, false⟩

/-- Witness for the amended C1 at a concrete two-task server. -/
theorem C1_amended_shutdown_drains_registry_witness :
    ∃ tEnd, shutdown 6 sPair 0 =
      some ({ sPair with applications := [] },
        .ok (specShutdownRemoved sPair.applications 0, tEnd)) :=
  C1_amended_shutdown_drains_registry sPair 0 (by decide) (by
    intro p hp
    simp only [sPair, List.mem_cons, List.not_mem_nil, or_false] at hp
    rcases hp with h | h
    · exact ⟨2, by rw [h]; rfl, by omega⟩
    · exact ⟨0, by rw [h]; rfl, by omega⟩)

/-- Server holding one task whose work never stops executing (it ignores the
cooperative stop flag). -/
def sHung : ServerState := ⟨"S", 1, [(hLive, rtB)], false, false⟩

/-- C2 is refuted by the code: on a handle whose task ignores the stop signal
past the grace period, the escalation's probe `thread.exception(2)` raises
`TimeoutError` once its 2-tick wait elapses with the work still executing.
The error propagates out of `remove_application` (the method fails to the
caller), and the registry entry is never deleted — the wait loop does NOT
keep re-checking until the work completes.  Evaluated here: grace period
ticks 0-2, escalation at tick 3, probe timeout, `TimeoutError` raised with
the entry still registered (flag lowered). -/
theorem C2_escalation_probe_raises_timeout :
    removeApplication 9 sHung (.fut hLive) 0 =
      some ({ sHung with applications := [(hLive, { rtB with running := false })] },
        .error .timeoutError) :=
  rfl

/-- Stands for `int((cpu_count() * 2) - 1)`, the default worker count of
`ApplicationServer.__init__`; its concrete value is environment-dependent and
constrained by no claim. -/
def defaultWorkerCount : Nat := 7

/-- Process-wide state: `defaultInst` is the module-level global
`APP_SERVER_DEFAULT_INSTANCE` (a server id or `None`), `servers` the living
`ApplicationServer` objects keyed by identity, `nextServerId`/`nextFutId`
fresh-identity supplies for new server objects and new pool futures.
`moduleDefaultAppId` is the value produced by the single `uuid4()` call in
`Application.__init__`'s default-argument list, evaluated once when the `def`
executes at class-definition time. -/
structure World where
  moduleDefaultAppId : Nat
  defaultInst : Option Nat
  servers : List (Nat × ServerState)
  nextServerId : Nat
  nextFutId : Nat
deriving DecidableEq

/-- Constructor `ApplicationServer(name, workers, autostart)`: builds the
server with an empty registry and the `__started` flag down, and — the last
lines of `__init__` — sets the global `APP_SERVER_DEFAULT_INSTANCE` to this
instance only when no default is set yet.  Returns the new world and the id
of the created server. -/
def newServer (w : World) (name : String) (workers : Nat) (autostart : Bool) :
    World × Nat :=
  let sid := w.nextServerId
  let srv : ServerState :=
    { server_name := name, workers := workers, applications := [],
      autostart := autostart, started := false }
  ({ w with
      servers := w.servers ++ [(sid, srv)]
      nextServerId := sid + 1
      defaultInst := match w.defaultInst with | none => some sid | some d => some d },
   sid)

/-- Lookup of a server object by identity. -/
def serverLookup (l : List (Nat × ServerState)) (i : Nat) : Option ServerState :=
  match l with
  | [] => none
  | p :: rest => if p.1 = i then some p.2 else serverLookup rest i

/-- In-place mutation of the server object with identity `i`. -/
def serverUpdate (l : List (Nat × ServerState)) (i : Nat) (srv : ServerState) :
    List (Nat × ServerState) :=
  l.map (fun p => if p.1 = i then (i, srv) else p)

/-- A dynamically typed constructor argument: either a value of the annotated
type or a value of some other runtime type. -/
inductive Arg (α : Type) where
  | ofType (a : α)
  | badType (descr : String)
deriving DecidableEq

/-- Whether a supplied argument fails the `isinstance` check. -/
def argIsBadType {α : Type} : Option (Arg α) → Bool
  | some (.badType _) => true
  | _ => false

/-- What `Application.__init__` leaves behind for the caller: the instance
attributes (name, identifier, bound server) plus the handle its `run` method
was dispatched under and whether registration entered the autostart run
loop. -/
structure AppObj where
  app_name : String
  app_id : Nat
  serverId : Nat
  handle : Handle
  entersRun : Bool
deriving DecidableEq

/-- Registration step shared by all `Application.__init__` paths:
`self.server.start_application(self)` on the server object with identity
`sid`, dispatching the task's `run` method (whose terminal behaviour is
`runBehavior`) under a fresh future. -/
def registerApp (w : World) (sid : Nat) (rt : AppRuntime) (runBehavior : Fut) :
    World × Except PyErr AppObj :=
  match serverLookup w.servers sid with
  | none => (w, .error .keyError)
  | some srv =>
    let h : Handle := ⟨w.nextFutId, runBehavior⟩
    match startApplication srv (.app rt) h with
    | (srv1, .ok entered) =>
      ({ w with servers := serverUpdate w.servers sid srv1, nextFutId := w.nextFutId + 1 },
       .ok { app_name := rt.app_name, app_id := rt.app_id, serverId := sid,
             handle := h, entersRun := entered })
    | (srv1, .error e) =>
      ({ w with servers := serverUpdate w.servers sid srv1 }, .error e)

/-- Value bound to `self.app_id`: the argument when one was passed with the
right type, else the default-argument value — the single module-load
uuid. -/
def pickAppId (w : World) (idArg : Option (Arg Nat)) : Nat :=
  match idArg with
  | some (.ofType u) => u
  | _ => w.moduleDefaultAppId

/-- Constructor `Application(name, app_id=<module uuid>, app_meta=<module
AppMeta>, server=None)`, following `base.py:344-395` statement by statement:
first the two `isinstance` type checks (`TypeError` with no side effect at
all on failure), then the instance attributes (`running = True`; an omitted
`app_id` falls back to the default argument, i.e. the module-load uuid),
then `self.server = server or APP_SERVER_DEFAULT_INSTANCE`, creating an
`ApplicationServer(autostart=True)` — and assigning it to the global — only
when both are `None`, and finally `self.server.start_application(self)`. -/
def constructApp (w : World) (name : String) (appIdArg : Option (Arg Nat))
    (metaArg : Option (Arg Unit)) (serverArg : Option Nat) (runBehavior : Fut) :
    World × Except PyErr AppObj :=
  if argIsBadType appIdArg then (w, .error .typeError)
  else if argIsBadType metaArg then (w, .error .typeError)
  else
    let rt : AppRuntime :=
      { app_name := name, app_id := pickAppId w appIdArg, running := true }
    match serverArg with
    | some sid => registerApp w sid rt runBehavior
    | none =>
      match w.defaultInst with
      | some sid => registerApp w sid rt runBehavior
      | none =>
        let ws := newServer w "DS Application Server" defaultWorkerCount true
        let w2 : World := { ws.1 with defaultInst := some ws.2 }
        registerApp w2 ws.2 rt runBehavior

/-- `start_application` on an actual `Application` always succeeds, adding
the dispatched handle to the registry and entering the run loop exactly when
autostart is set and the loop was not yet entered. -/
theorem startApplication_app_eq (s : ServerState) (rt : AppRuntime) (h : Handle) :
    startApplication s (.app rt) h =
      (if s.autostart && !s.started then
        ({ s with applications := dictInsert s.applications h rt, started := true }, .ok true)
      else
        ({ s with applications := dictInsert s.applications h rt }, .ok false)) := by
  unfold startApplication
  by_cases hc : s.autostart && !s.started
  · simp [hc]
  · simp [hc]

/-- Mutating a server object in place does not change which servers exist. -/
theorem serverUpdate_keys (l : List (Nat × ServerState)) (i : Nat) (srv : ServerState) :
    (serverUpdate l i srv).map Prod.fst = l.map Prod.fst := by
  induction l with
  | nil => rfl
  | cons p rest ih =>
    by_cases h : p.1 = i
    · simp [serverUpdate, h] at ih ⊢
      exact ih
    · simp [serverUpdate, h] at ih ⊢
      exact ih

/-- Looking up a freshly appended server id finds the new server. -/
theorem serverLookup_append_fresh (l : List (Nat × ServerState)) (i : Nat)
    (srv : ServerState) (h : ∀ p ∈ l, p.1 ≠ i) :
    serverLookup (l ++ [(i, srv)]) i = some srv := by
  induction l with
  | nil => simp [serverLookup]
  | cons p rest ih =>
    have hp : p.1 ≠ i := h p (List.mem_cons_self _ _)
    simp only [List.cons_append, serverLookup, if_neg hp]
    exact ih (fun q hq => h q (List.mem_cons_of_mem _ hq))

/-- After an in-place update of an existing server id, lookup returns the
updated object. -/
theorem serverLookup_update (l : List (Nat × ServerState)) (i : Nat)
    (srv0 srv : ServerState) (h : serverLookup l i = some srv0) :
    serverLookup (serverUpdate l i srv) i = some srv := by
  induction l with
  | nil => simp [serverLookup] at h
  | cons p rest ih =>
    by_cases hp : p.1 = i
    · simp [serverUpdate, serverLookup, hp]
    · simp only [serverLookup, if_neg hp] at h
      simp only [serverUpdate] at ih
      simp only [serverUpdate, List.map_cons, if_neg hp, serverLookup]
      exact ih h

/-- Registration `self.server.start_application(self)` on an existing server
object: the world keeps every attribute except the mutated server object and
the consumed future identity, and the constructor result carries the task's
attributes and dispatched handle. -/
theorem registerApp_found (w : World) (sid : Nat) (srv : ServerState) (rt : AppRuntime)
    (fb : Fut) (hs : serverLookup w.servers sid = some srv) :
    ∃ srv1 entered, srv1.autostart = srv.autostart ∧
      registerApp w sid rt fb =
        ({ w with servers := serverUpdate w.servers sid srv1, nextFutId := w.nextFutId + 1 },
         .ok { app_name := rt.app_name, app_id := rt.app_id, serverId := sid,
               handle := ⟨w.nextFutId, fb⟩, entersRun := entered }) := by
  by_cases hc : srv.autostart && !srv.started
  · refine ⟨{ srv with
        applications := dictInsert srv.applications ⟨w.nextFutId, fb⟩ rt,
        started := true }, true, rfl, ?_⟩
    unfold registerApp
    rw [hs]
    simp [startApplication_app_eq, hc]
  · refine ⟨{ srv with
        applications := dictInsert srv.applications ⟨w.nextFutId, fb⟩ rt }, false, rfl, ?_⟩
    unfold registerApp
    rw [hs]
    simp [startApplication_app_eq, hc]

/-- C7: the process-wide default supervisor reference is first-writer-wins —
constructing a supervisor sets it only when unset and never overwrites it —
and a task constructed without an explicit supervisor binds to the current
default when one exists (no server is created), and otherwise creates the
default on demand with autostart enabled and binds to it. -/
theorem C7_default_supervisor_first_writer_wins :
    (∀ (w : World) (n : String) (k : Nat) (a : Bool) (d : Nat),
      w.defaultInst = some d → ((newServer w n k a).1).defaultInst = some d) ∧
    (∀ (w : World) (n : String) (k : Nat) (a : Bool),
      w.defaultInst = none →
        ((newServer w n k a).1).defaultInst = some (newServer w n k a).2) ∧
    (∀ (w : World) (name : String) (idArg : Option (Arg Nat)) (mArg : Option (Arg Unit))
        (fb : Fut) (d : Nat) (srv : ServerState),
      argIsBadType idArg = false → argIsBadType mArg = false →
      w.defaultInst = some d → serverLookup w.servers d = some srv →
      ∃ obj w1, constructApp w name idArg mArg none fb = (w1, .ok obj) ∧
        obj.serverId = d ∧ w1.defaultInst = some d ∧
        w1.servers.map Prod.fst = w.servers.map Prod.fst) ∧
    (∀ (w : World) (name : String) (idArg : Option (Arg Nat)) (mArg : Option (Arg Unit))
        (fb : Fut),
      argIsBadType idArg = false → argIsBadType mArg = false →
      w.defaultInst = none → (∀ p ∈ w.servers, p.1 < w.nextServerId) →
      ∃ obj w1, constructApp w name idArg mArg none fb = (w1, .ok obj) ∧
        obj.serverId = w.nextServerId ∧ w1.defaultInst = some w.nextServerId ∧
        ∃ srv1, serverLookup w1.servers w.nextServerId = some srv1 ∧
          srv1.autostart = true) := by
  refine ⟨?_, ?_, ?_, ?_⟩
  · intro w n k a d hd
    simp [newServer, hd]
  · intro w n k a hd
    simp [newServer, hd]
  · intro w name idArg mArg fb d srv hid hm hd hs
    obtain ⟨srv1, entered, _, hreg⟩ := registerApp_found w d srv
      { app_name := name, app_id := pickAppId w idArg, running := true } fb hs
    have heq : constructApp w name idArg mArg none fb =
        ({ w with servers := serverUpdate w.servers d srv1, nextFutId := w.nextFutId + 1 },
         .ok { app_name := name,
               app_id := pickAppId w idArg,
               serverId := d, handle := ⟨w.nextFutId, fb⟩, entersRun := entered }) := by
      unfold constructApp
      simp only [hid, hm, Bool.false_eq_true, if_false, hd]
      rw [← hd]
      exact hreg
    exact ⟨_, _, heq, rfl, hd, serverUpdate_keys _ _ _⟩
  · intro w name idArg mArg fb hid hm hd hfresh
    have hlook : serverLookup (w.servers ++ [(w.nextServerId,
        ({ server_name := "DS Application Server", workers := defaultWorkerCount,
           applications := [], autostart := true, started := false } : ServerState))])
        w.nextServerId = some
          { server_name := "DS Application Server", workers := defaultWorkerCount,
            applications := [], autostart := true, started := false } :=
      serverLookup_append_fresh w.servers w.nextServerId _
        (fun p hp => Nat.ne_of_lt (hfresh p hp))
    obtain ⟨srv1, entered, hauto, hreg⟩ := registerApp_found
      { moduleDefaultAppId := w.moduleDefaultAppId, defaultInst := some w.nextServerId,
        servers := w.servers ++ [(w.nextServerId,
          { server_name := "DS Application Server", workers := defaultWorkerCount,
            applications := [], autostart := true, started := false })],
        nextServerId := w.nextServerId + 1, nextFutId := w.nextFutId }
      w.nextServerId
      { server_name := "DS Application Server", workers := defaultWorkerCount,
        applications := [], autostart := true, started := false }
      { app_name := name, app_id := pickAppId w idArg, running := true } fb hlook
    have heq : constructApp w name idArg mArg none fb =
        ({ moduleDefaultAppId := w.moduleDefaultAppId, defaultInst := some w.nextServerId,
           servers := serverUpdate (w.servers ++ [(w.nextServerId,
             { server_name := "DS Application Server", workers := defaultWorkerCount,
               applications := [], autostart := true, started := false })])
             w.nextServerId srv1,
           nextServerId := w.nextServerId + 1, nextFutId := w.nextFutId + 1 },
         .ok { app_name := name,
               app_id := pickAppId w idArg,
               serverId := w.nextServerId, handle := ⟨w.nextFutId, fb⟩,
               entersRun := entered }) := by
      unfold constructApp
      simp only [hid, hm, Bool.false_eq_true, if_false, hd, newServer]
      exact hreg
    refine ⟨_, _, heq, rfl, rfl, srv1, serverLookup_update _ _ _ _ hlook, ?_⟩
    rw [hauto]

/-- Witness world for the default-instance claims: no default set, one
not-yet-defaulted world with a stale server, etc. -/
def w0 : World := ⟨42, none, [], 0, 0⟩

def futA : Fut := ⟨some 10, none⟩

def futB : Fut := ⟨some 10, none⟩

/-- Witness for C7 at concrete inputs: creating a server in a world with a
default set leaves the default untouched; creating one in a world without
sets it; constructing a task with no explicit supervisor and no default
creates the autostart default and binds to it. -/
theorem C7_default_supervisor_first_writer_wins_witness :
    (((newServer ⟨42, some 5, [], 6, 0⟩ "N" 1 false).1).defaultInst = some 5) ∧
    (((newServer w0 "N" 1 false).1).defaultInst = some (newServer w0 "N" 1 false).2) ∧
    (∃ obj w1, constructApp w0 "B" none none none futA = (w1, .ok obj) ∧
      obj.serverId = w0.nextServerId ∧ w1.defaultInst = some w0.nextServerId ∧
      ∃ srv1, serverLookup w1.servers w0.nextServerId = some srv1 ∧
        srv1.autostart = true) :=
  ⟨C7_default_supervisor_first_writer_wins.1 ⟨42, some 5, [], 6, 0⟩ "N" 1 false 5 rfl,
   C7_default_supervisor_first_writer_wins.2.1 w0 "N" 1 false rfl,
   C7_default_supervisor_first_writer_wins.2.2.2 w0 "B" none none futA rfl rfl rfl
     (by intro p hp; cases hp)⟩

/-- C10: `Application.__init__` runs its `isinstance` checks on `app_id` and
`app_meta` before anything else — a wrongly typed identifier or metadata
argument raises `TypeError` with the world unchanged: no default supervisor
created or overwritten, nothing registered or dispatched. -/
theorem C10_constructor_type_checks_first (w : World) (name d : String)
    (idArg : Option (Arg Nat)) (mArg : Option (Arg Unit)) (sv : Option Nat) (fb : Fut) :
    (constructApp w name (some (.badType d)) mArg sv fb = (w, .error .typeError)) ∧
    (argIsBadType idArg = false →
      constructApp w name idArg (some (.badType d)) sv fb = (w, .error .typeError)) := by
  constructor
  · rfl
  · intro h
    unfold constructApp
    simp [h, argIsBadType]

/-- Witness for C10: a string passed as `app_id` and a string passed as
`app_meta` each fail with `TypeError`, leaving the world exactly as it was. -/
theorem C10_constructor_type_checks_first_witness :
    (constructApp w0 "A" (some (.badType "int")) none none futA =
      (w0, .error .typeError)) ∧
    (constructApp w0 "A" none (some (.badType "dict")) none futA =
      (w0, .error .typeError)) :=
  ⟨(C10_constructor_type_checks_first w0 "A" "int" none none none futA).1,
   (C10_constructor_type_checks_first w0 "A" "dict" none none none futA).2 rfl⟩

/-- C3 is refuted by the code: `uuid4()` in `def __init__(..., app_id: UUID =
uuid4(), ...)` is evaluated once at class definition time, so every task
constructed without an explicit `app_id` receives the SAME identifier (here
the module-load value 42): two distinct instances, identical `app_id`. -/
theorem C3_default_app_id_shared_between_instances :
    (constructApp w0 "A" none none none futA).2 =
      .ok { app_name := "A", app_id := 42, serverId := 0,
            handle := ⟨0, futA⟩, entersRun := true } ∧
    (constructApp (constructApp w0 "A" none none none futA).1 "B" none none none futB).2 =
      .ok { app_name := "B", app_id := 42, serverId := 0,
            handle := ⟨1, futB⟩, entersRun := false } :=
  ⟨rfl, rfl⟩

end DSTAF
